import Mathlib

/-!
Verification of the decision-loop controller of the industry research report
workflow (`run_industry_research_report.py`) and of the structured response
extraction helper (`app/llm/llm_helper.py`).

The Python code manipulates dynamically typed values that come out of the
external YAML parser (`yaml.safe_load`).  We embed those values as `PyVal`
and embed each operation the source performs on them (`d[k]`, `d.get(k, v)`,
`d[k] = v`, `x in xs`, truthiness) with Python's semantics, including the
exceptions they can raise: an `Except.error` result stands for an uncaught
Python exception carrying a short description.  The external collaborators
(the YAML parser and the LLM transport) live outside the repository and are
passed in as oracles: `parse : String → Option PyVal` with `Option.none`
standing for "the parser raised", and a response sequence `Nat → String`
giving the text returned by the n-th LLM call of an `exec` invocation.
-/

namespace IndustryReport

/-- Dynamically typed values produced by the external YAML parser: the subset
of Python values that `yaml.safe_load` returns on the documents this workflow
handles (None, integers, strings, lists, string-keyed dicts). -/
inductive PyVal where
  | none
  | int (n : Int)
  | str (s : String)
  | list (elems : List PyVal)
  | dict (entries : List (String × PyVal))

mutual

/-- Python structural equality `==` on `PyVal` (values of different kinds
compare unequal; lists and dicts compare elementwise). -/
def pyEq : PyVal → PyVal → Bool
  | .none, .none => true
  | .int a, .int b => a == b
  | .str a, .str b => a == b
  | .list as, .list bs => pyEqList as bs
  | .dict as, .dict bs => pyEqEntries as bs
  | _, _ => false

/-- Elementwise `==` on Python lists. -/
def pyEqList : List PyVal → List PyVal → Bool
  | [], [] => true
  | a :: as, b :: bs => pyEq a b && pyEqList as bs
  | _, _ => false

/-- Entrywise `==` on insertion-ordered dicts. -/
def pyEqEntries : List (String × PyVal) → List (String × PyVal) → Bool
  | [], [] => true
  | (k1, v1) :: as, (k2, v2) :: bs => (k1 == k2) && pyEq v1 v2 && pyEqEntries as bs
  | _, _ => false

end

/-- The single-quote character (code point 39). -/
def squoteChar : Char := Char.ofNat 39

/-- The double-quote character (code point 34). -/
def dquoteChar : Char := Char.ofNat 34

/-- One lowercase hexadecimal digit (for `\xXX` escapes). -/
def reprHexDigit (n : Nat) : Char :=
  if n < 10 then Char.ofNat (48 + n) else Char.ofNat (87 + n)

/-- How Python `repr` renders one character of a string quoted with
`quote`: backslash and the quote character are backslash-escaped, newline,
carriage return and tab become `\n`, `\r`, `\t`, other ASCII control
characters become `\xXX`, and everything else is kept as-is. -/
def escapeStrChar (quote : Char) (c : Char) : List Char :=
  if c = '\\' then ['\\', '\\']
  else if c = quote then ['\\', quote]
  else if c = '\n' then ['\\', 'n']
  else if c = '\r' then ['\\', 'r']
  else if c = '\t' then ['\\', 't']
  else if c.toNat < 32 || c.toNat = 127 then
    ['\\', 'x', reprHexDigit (c.toNat / 16), reprHexDigit (c.toNat % 16)]
  else [c]

/-- Python `repr` of a string: single-quoted, unless the string contains a
single quote and no double quote, in which case it is double-quoted; the
characters are escaped as in `escapeStrChar`.  (Python additionally escapes
non-printable characters outside the ASCII range; none occur in this
workflow's data.) -/
def pyReprString (s : String) : String :=
  let cs := s.data
  let quote :=
    if cs.any (fun c => c == squoteChar) && !(cs.any (fun c => c == dquoteChar)) then
      dquoteChar
    else
      squoteChar
  String.mk (quote :: ((cs.map (escapeStrChar quote)).flatten ++ [quote]))

mutual

/-- Python `repr` on the values of `PyVal` (used by f-string interpolation of
containers). -/
def pyRepr : PyVal → String
  | .none => "None"
  | .int n => toString n
  | .str s => pyReprString s
  | .list xs => "[" ++ String.intercalate ", " (pyReprList xs) ++ "]"
  | .dict kvs => "\x7b" ++ String.intercalate ", " (pyReprEntries kvs) ++ "\x7d"

/-- `repr` of each element of a Python list. -/
def pyReprList : List PyVal → List String
  | [] => []
  | x :: xs => pyRepr x :: pyReprList xs

/-- `repr` of each `key: value` entry of a Python dict. -/
def pyReprEntries : List (String × PyVal) → List String
  | [] => []
  | (k, v) :: rest => (pyReprString k ++ ": " ++ pyRepr v) :: pyReprEntries rest

end

/-- Python `str(x)`, as used by f-string interpolation: identity on strings,
`repr`-style rendering on everything else. -/
def pyStr : PyVal → String
  | .str s => s
  | .none => pyRepr .none
  | .int n => pyRepr (.int n)
  | .list xs => pyRepr (.list xs)
  | .dict kvs => pyRepr (.dict kvs)

/-- First value bound to key `k` in an association list (Python dict lookup;
dicts keep one entry per key, insertion-ordered). -/
def lookupStr : List (String × PyVal) → String → Option PyVal
  | [], _ => Option.none
  | (k0, v0) :: rest, k => if k0 = k then some v0 else lookupStr rest k

/-- Python `d[k] = v` on an insertion-ordered dict: replace the entry in
place if the key exists, otherwise append it at the end. -/
def setAssoc : List (String × PyVal) → String → PyVal → List (String × PyVal)
  | [], k, v => [(k, v)]
  | (k0, v0) :: rest, k, v =>
    if k0 = k then (k, v) :: rest else (k0, v0) :: setAssoc rest k v

/-- Python `x[k]` for a string key `k`: dict lookup, `KeyError` when the key
is absent, `TypeError` when the value is not subscriptable by a string. -/
def PyVal.getItem : PyVal → String → Except String PyVal
  | .dict kvs, k =>
    match lookupStr kvs k with
    | some v => .ok v
    | Option.none => .error ("KeyError: " ++ k)
  | _, k => .error ("TypeError: value not subscriptable by " ++ k)

/-- Python `x.get(k, dflt)`: defined for dicts only (`AttributeError`
otherwise). -/
def PyVal.getD : PyVal → String → PyVal → Except String PyVal
  | .dict kvs, k, dflt =>
    match lookupStr kvs k with
    | some v => .ok v
    | Option.none => .ok dflt
  | _, _, _ => .error "AttributeError: no attribute get"

/-- Python `x[k] = v` for a string key: item assignment, `TypeError` for
non-dicts. -/
def PyVal.setItem : PyVal → String → PyVal → Except String PyVal
  | .dict kvs, k, v => .ok (.dict (setAssoc kvs k v))
  | _, _, _ => .error "TypeError: value does not support item assignment"

/-- Python truthiness (`bool(x)`). -/
def PyVal.truthy : PyVal → Bool
  | .none => false
  | .int n => n != 0
  | .str s => s ≠ ""
  | .list xs => !xs.isEmpty
  | .dict kvs => !kvs.isEmpty

/-- Python `x == "lit"` for a string literal: true exactly when `x` is that
string. -/
def PyVal.eqStr : PyVal → String → Bool
  | .str s, t => s == t
  | _, _ => false

/-- Python `v in xs` for a list `xs`: membership by `==`. -/
def pyMem (v : PyVal) : List PyVal → Bool
  | [] => false
  | x :: xs => if pyEq x v then true else pyMem v xs

/-- `isinstance(x, dict) and k in x` (the guard at line 121 of
`run_industry_research_report.py`). -/
def isDictWithKey : PyVal → String → Bool
  | .dict kvs, k => (lookupStr kvs k).isSome
  | _, _ => false

/-- Python `k in x` for a string `k` and an arbitrary container `x`:
key membership for dicts, element membership for lists, substring test for
strings, and `TypeError` for non-iterables (as at line 141 of the source,
where `"name" not in section` is evaluated on an arbitrary YAML value). -/
def pyIn (k : String) : PyVal → Except String Bool
  | .dict kvs => .ok (lookupStr kvs k).isSome
  | .list xs => .ok (pyMem (.str k) xs)
  | .str s => .ok (decide (List.IsInfix k.data s.data))
  | _ => .error "TypeError: argument is not iterable"

/-! ### Python string primitives

The source slices and splits response strings (`resp.split("```yaml")[1]`,
`response.find("```", start)`, `response[start:end]`, `.strip()`).  We embed
them over `List Char`, which the kernel can evaluate. -/

/-- Python's whitespace set for `str.strip`. -/
def isPySpace (c : Char) : Bool :=
  c = ' ' || c = '\t' || c = '\n' || c = '\r' || c = Char.ofNat 11 || c = Char.ofNat 12

/-- Python `s.strip()`. -/
def stripChars (cs : List Char) : List Char :=
  ((cs.dropWhile isPySpace).reverse.dropWhile isPySpace).reverse

/-- Whether the first list is a prefix of the second (decidable, executable). -/
def isPrefixOfCh : List Char → List Char → Bool
  | [], _ => true
  | _ :: _, [] => false
  | a :: as, b :: bs => if a = b then isPrefixOfCh as bs else false

/-- Index of the first occurrence of `sub` in the haystack (Python
`s.find(sub)`, with `Option.none` for "not found" instead of `-1`). -/
def findSub (sub : List Char) : List Char → Option Nat
  | [] => if isPrefixOfCh sub [] then some 0 else Option.none
  | c :: t =>
    if isPrefixOfCh sub (c :: t) then some 0
    else (findSub sub t).map (· + 1)

/-- Rebuild a `String` from its characters. -/
def listAsString (cs : List Char) : String := String.mk cs

/-- The fence label `"```yaml"` (7 characters). -/
def yamlFence : List Char := "```yaml".data

/-- A bare fence `"```"` (3 characters). -/
def tick3 : List Char := "```".data

/-- The backtick character (code point 96). -/
def backtickChar : Char := Char.ofNat 96

/-- Whether a character list contains no backtick (so it can contain no
fence). -/
def noBacktick (cs : List Char) : Bool := cs.all (fun c => c != backtickChar)

/-! ### The Decision Node (`IndustryResearchFlow.exec`, lines 59-150)

`prep` (lines 50-57) passes `exec` the industry name, a YAML dump of the
accumulated context, and `generated_section_names`, the list of `name`
values of the sections stored so far.  `exec` loops at most
`max_loops + 1 = 11` times: each pass calls the LLM, extracts the text
between the first ```` ```yaml ```` fence and the following ```` ``` ````,
parses it (any exception there is caught and coerced to a default
"complete" result), logs `result["action"]` and `result["reason"]`
(uncaught `KeyError`/`TypeError` when the parsed value is not a dict with
both keys), repairs duplicate or malformed `generate` decisions, and exits
as soon as the action is `search`, `generate` or `complete`. -/

/-- The fixed checklist of important sections (lines 124-132 of
`run_industry_research_report.py`, identical to the list in the prompt). -/
def importantSections : List String :=
  ["行业概述/行业概览",
   "市场规模分析",
   "竞争格局分析",
   "技术发展趋势",
   "政策环境分析",
   "风险与挑战",
   "发展前景预测"]

/-- The default decision substituted when parsing the LLM response raises
(line 116). -/
def parseFailResult : PyVal :=
  .dict [("action", .str "complete"), ("reason", .str "解析失败，默认完成")]

/-- The decision returned when the loop reaches the iteration cap
(line 68). -/
def maxLoopsResult : PyVal :=
  .dict [("action", .str "complete"), ("reason", .str "已达最大循环次数，自动完成。")]

/-- `max_loops` (line 63). -/
def maxLoops : Nat := 10

/-- The replacement section stub installed when a duplicate `generate`
decision is repaired (line 135). -/
def substituteSection (tgt : String) : PyVal :=
  .dict [("name", .str tgt), ("focus", .str "重点分析")]

/-- Line 110: `resp.split("```yaml")[1].split("```", 1)[0].strip()`.
`Option.none` models the `IndexError` raised (and caught at line 112) when
the response contains no ```` ```yaml ```` fence; otherwise the result is the
text between the first ```` ```yaml ```` and the next ```` ``` ````
(or the next ```` ```yaml ````, whichever comes first), stripped. -/
def decisionExtractChars (cs : List Char) : Option (List Char) :=
  match findSub yamlFence cs with
  | Option.none => Option.none
  | some i =>
    let afterFence := cs.drop (i + 7)
    let seg :=
      match findSub yamlFence afterFence with
      | Option.none => afterFence
      | some j => afterFence.take j
    let body :=
      match findSub tick3 seg with
      | Option.none => seg
      | some j => seg.take j
    some (stripChars body)

/-- Lines 109-116: extract the fenced YAML and run the external parser on
it; any exception (no fence, or the parser raising) yields the default
"complete" result. -/
def rawDecision (parse : String → Option PyVal) (resp : String) : PyVal :=
  match decisionExtractChars resp.data with
  | Option.none => parseFailResult
  | some body =>
    match parse (listAsString body) with
    | Option.none => parseFailResult
    | some v => v

/-- Lines 141-143 of the repair step: `section` is falsy or has no `name`
key, so the decision is coerced to `complete` with a format-error reason. -/
def coerceFormatError (result : PyVal) : Except String PyVal :=
  match result.setItem "action" (.str "complete") with
  | .error e => .error e
  | .ok r => r.setItem "reason" (.str "章节信息格式错误，自动完成。")

/-- Lines 120-143: the repair applied to a `generate` decision, given the
value of `result.get("section", {})`.  A section dict whose `name` is
already generated is replaced by the first checklist entry not yet
generated (default focus), or the whole decision is coerced to `complete`
when every checklist entry is generated; a falsy or nameless section is
coerced to a format-error `complete`. -/
def repairGenerate (genNames : List PyVal) (result sec : PyVal) : Except String PyVal :=
  if isDictWithKey sec "name" then
    match sec.getItem "name" with
    | .error e => .error e
    | .ok nameV =>
      if pyMem nameV genNames then
        match importantSections.find? (fun s => !(pyMem (.str s) genNames)) with
        | some tgt => result.setItem "section" (substituteSection tgt)
        | Option.none =>
          match result.setItem "action" (.str "complete") with
          | .error e => .error e
          | .ok r => r.setItem "reason" (.str "所有重要章节都已生成，自动完成。")
      else .ok result
  else
    if !sec.truthy then coerceFormatError result
    else
      match pyIn "name" sec with
      | .error e => .error e
      | .ok b => if !b then coerceFormatError result else .ok result

/-- Lines 117-143: the two unconditional accesses `result["action"]` and
`result["reason"]` (inside the log statements), then the repair of
`generate` decisions. -/
def repairDecision (genNames : List PyVal) (result : PyVal) : Except String PyVal :=
  match result.getItem "action" with
  | .error e => .error e
  | .ok actionV =>
    match result.getItem "reason" with
    | .error e => .error e
    | .ok _ =>
      if actionV.eqStr "generate" then
        match result.getD "section" (.dict []) with
        | .error e => .error e
        | .ok sec => repairGenerate genNames result sec
      else .ok result

/-- Lines 144-149: the loop exits when `result["action"]` is one of
`search`, `generate`, `complete`. -/
def loopBreaks (result : PyVal) : Except String Bool :=
  match result.getItem "action" with
  | .error e => .error e
  | .ok a => .ok (a.eqStr "search" || a.eqStr "generate" || a.eqStr "complete")

/-- One pass of the loop body (lines 108-143) for one LLM response. -/
def decisionIteration (genNames : List PyVal) (parse : String → Option PyVal)
    (resp : String) : Except String PyVal :=
  repairDecision genNames (rawDecision parse resp)

/-- The `while True` loop of `exec` (lines 65-150).  The source checks
`loop_count > max_loops` before each body and increments afterwards, so
exactly `max_loops + 1 = 11` bodies run before the cap return at line 68;
`fuel` counts the bodies still allowed and `n` indexes the LLM call
outcomes consumed so far. -/
def decisionExecAux (genNames : List PyVal) (parse : String → Option PyVal)
    (resps : Nat → String) : Nat → Nat → Except String PyVal
  | 0, _ => .ok maxLoopsResult
  | fuel + 1, n =>
    match decisionIteration genNames parse (resps n) with
    | .error e => .error e
    | .ok result =>
      match loopBreaks result with
      | .error e => .error e
      | .ok true => .ok result
      | .ok false => decisionExecAux genNames parse resps fuel (n + 1)

/-- `IndustryResearchFlow.exec` (lines 59-150), for a given list of
already-generated section names, parser oracle, and sequence of LLM
responses:  `.ok d` is the returned decision, `.error e` an uncaught
exception. -/
def decisionExec (genNames : List PyVal) (parse : String → Option PyVal)
    (resps : Nat → String) : Except String PyVal :=
  decisionExecAux genNames parse resps (maxLoops + 1) 0

/-- `call_llm` (lines 288-301): on success the stripped message content is
returned, on any exception the empty string. -/
def call_llm (outcome : Except String String) : String :=
  match outcome with
  | .ok content => listAsString (stripChars content.data)
  | .error _ => ""

/-! ### The Generate-Section Node (`GenerateSection`, lines 211-264) -/

/-- A section stored in `shared["generated_sections"]`.  Only
`GenerateSection.post` appends to that list, and every value it appends is
an `exec` result, a dict with exactly the keys `name` (the YAML value) and
`content` (the LLM text). -/
structure GenSection where
  name : PyVal
  content : String

/-- `[section.get("name", "") for section in generated_sections]` (lines 56
and 255): every stored section carries a `name`, so the default never
fires. -/
def generatedSectionNames (sections : List GenSection) : List PyVal :=
  sections.map (fun s => s.name)

/-- The fallback section returned by `GenerateSection.exec` when
`current_section` is not a dict with a `name` key (lines 222-227): the
content is the f-string `f"章节信息格式错误: {section}"`, which interpolates
`str(section)` — the identity on strings, `repr`-style rendering on
containers. -/
def errorSection (sectionV : PyVal) : GenSection :=
  { name := .str "错误章节",
    content := "章节信息格式错误: " ++ pyStr sectionV }

/-- The generation prompt (lines 231-243), with `context_str` the YAML dump
of the accumulated context. -/
def generateSectionPrompt (industry : String) (nameV focusV : PyVal)
    (contextStr : String) : String :=
  "\n行业：" ++ industry ++
  "\n章节：" ++ pyStr nameV ++
  "\n重点：" ++ pyStr focusV ++
  "\n参考资料：" ++ contextStr ++
  "\n\n请生成一个专业、详实的研报章节。要求：\n1. 数据支撑充分\n2. 逻辑严谨\n3. 分析深入\n4. 结构清晰\n5. 语言专业\n"

/-- `GenerateSection.exec` (lines 219-251): a malformed `current_section`
(not a dict, or lacking `name`) yields the fallback error section; otherwise
the LLM (oracle `llm`) is invoked on the generation prompt with
`focus = section.get("focus", "综合分析")` and the raw text is wrapped
together with the section name. -/
def generateSectionExec (industry : String) (sectionV : PyVal)
    (contextStr : String) (llm : String → String) : GenSection :=
  match sectionV with
  | .dict kvs =>
    match lookupStr kvs "name" with
    | some nameV =>
      let focusV := (lookupStr kvs "focus").getD (.str "综合分析")
      { name := nameV,
        content := llm (generateSectionPrompt industry nameV focusV contextStr) }
    | Option.none => errorSection sectionV
  | _ => errorSection sectionV

/-- `GenerateSection.post` (lines 253-264): append the executed section to
`generated_sections` unless its name is already present (a logged no-op),
and return the `"continue"` action either way. -/
def generateSectionPost (sections : List GenSection) (execRes : GenSection) :
    List GenSection × String :=
  if pyMem execRes.name (generatedSectionNames sections) then
    (sections, "continue")
  else
    (sections ++ [execRes], "continue")

/-- No two stored sections share a name (by Python `==`), the invariant the
dedup guard maintains. -/
def namesUnique : List PyVal → Bool
  | [] => true
  | x :: xs => !(pyMem x xs) && namesUnique xs

/-! ### The Completion Node (`CompleteReport.exec`, lines 273-281) -/

/-- `CompleteReport.exec`: a title heading derived from the industry name,
then each generated section in stored order under a `##` heading. -/
def completeReportExec (industry : String) (sections : List GenSection) : String :=
  sections.foldl
    (fun acc sec => acc ++ "\n## " ++ pyStr sec.name ++ "\n\n" ++ sec.content ++ "\n")
    ("# " ++ industry ++ "行业研究报告\n\n")

/-! ### `LLMHelper.parse_yaml_response` (`app/llm/llm_helper.py`, lines
192-211) -/

/-- The extraction step of `parse_yaml_response`: text between ```` ```yaml ````
and the following ```` ``` ```` when the labeled fence is present, else text
between ```` ``` ```` and the following ```` ``` ```` when a bare fence is
present, else the whole response; stripped in all cases.  When the opening
fence has no closing fence, Python computes `response[start:-1]`, dropping
the final character. -/
def parseYamlExtractChars (cs : List Char) : List Char :=
  match findSub yamlFence cs with
  | some i =>
    let tail := cs.drop (i + 7)
    (match findSub tick3 tail with
     | some j => stripChars (tail.take j)
     | Option.none => stripChars tail.dropLast)
  | Option.none =>
    match findSub tick3 cs with
    | some i =>
      let tail := cs.drop (i + 3)
      (match findSub tick3 tail with
       | some j => stripChars (tail.take j)
       | Option.none => stripChars tail.dropLast)
    | Option.none => stripChars cs

/-- `parse_yaml_response`: run the external YAML parser on the extracted
text; any exception is caught and an empty dict returned. -/
def parse_yaml_response (parse : String → Option PyVal) (response : String) : PyVal :=
  match parse (listAsString (parseYamlExtractChars response.data)) with
  | some v => v
  | Option.none => .dict []

/-! ### A record of the external YAML parser on concrete documents

The claims quantify over LLM response strings, while `yaml.safe_load` is an
external collaborator.  For the concrete inputs used in counterexamples and
witnesses below, `yamlOracle` records the value `yaml.safe_load` returns on
exactly those documents (flat block mappings and one two-level mapping);
every other document is mapped to `Option.none` ("the parser raised"),
which only makes the parse-failure path more common and is never relied on
for a counterexample. -/
def yamlOracle : String → Option PyVal := fun doc =>
  if doc = "foo: bar" then
    some (.dict [("foo", .str "bar")])
  else if doc = "action: search" then
    some (.dict [("action", .str "search")])
  else if doc = "action: retry\nreason: still deciding" then
    some (.dict [("action", .str "retry"), ("reason", .str "still deciding")])
  else if doc = "action: generate\nreason: ok\nsection:\n  name: 公司案例研究\n  focus: 案例" then
    some (.dict [("action", .str "generate"), ("reason", .str "ok"),
                 ("section", .dict [("name", .str "公司案例研究"), ("focus", .str "案例")])])
  else
    Option.none

/-! ### Basic lemmas -/

theorem lookupStr_setAssoc_self (kvs : List (String × PyVal)) (k : String) (v : PyVal) :
    lookupStr (setAssoc kvs k v) k = some v := by
  induction kvs with
  | nil => simp [setAssoc, lookupStr]
  | cons hd tl ih =>
    obtain ⟨k0, v0⟩ := hd
    by_cases h : k0 = k
    · simp [setAssoc, h, lookupStr]
    · simp [setAssoc, h, lookupStr, ih]

theorem lookupStr_setAssoc_ne (kvs : List (String × PyVal)) (k : String) (v : PyVal)
    (k2 : String) (h : k2 ≠ k) :
    lookupStr (setAssoc kvs k v) k2 = lookupStr kvs k2 := by
  have hne : ¬(k = k2) := fun hh => h hh.symm
  induction kvs with
  | nil => simp [setAssoc, lookupStr, hne]
  | cons hd tl ih =>
    obtain ⟨k0, v0⟩ := hd
    by_cases h0 : k0 = k
    · subst h0
      simp [setAssoc, lookupStr, hne]
    · simp only [setAssoc, if_neg h0, lookupStr]
      by_cases h2 : k0 = k2 <;> simp [h2, ih]

theorem pyMem_append (v : PyVal) (xs ys : List PyVal) :
    pyMem v (xs ++ ys) = (pyMem v xs || pyMem v ys) := by
  induction xs with
  | nil => simp [pyMem]
  | cons x xs ih =>
    by_cases h : pyEq x v = true <;> simp [pyMem, h, ih]

/-- The one-step unfolding of the decision loop body. -/
theorem decisionExecAux_succ (genNames : List PyVal) (parse : String → Option PyVal)
    (resps : Nat → String) (fuel n : Nat) :
    decisionExecAux genNames parse resps (fuel + 1) n =
      match decisionIteration genNames parse (resps n) with
      | .error e => .error e
      | .ok result =>
        match loopBreaks result with
        | .error e => .error e
        | .ok true => .ok result
        | .ok false => decisionExecAux genNames parse resps fuel (n + 1) := rfl

/-- A loop pass whose response has no ```` ```yaml ```` fence produces the
default parse-failure decision. -/
theorem decisionIteration_unfenced (genNames : List PyVal) (parse : String → Option PyVal)
    (resp : String) (h : decisionExtractChars resp.data = Option.none) :
    decisionIteration genNames parse resp = .ok parseFailResult := by
  rw [decisionIteration,
    show rawDecision parse resp = parseFailResult from by unfold rawDecision; rw [h]]
  rfl

/-- When the first LLM response has no fence, `exec` returns the default
parse-failure decision straight away. -/
theorem decisionExec_first_unfenced (genNames : List PyVal) (parse : String → Option PyVal)
    (resps : Nat → String) (h : decisionExtractChars (resps 0).data = Option.none) :
    decisionExec genNames parse resps = .ok parseFailResult := by
  rw [decisionExec, decisionExecAux_succ,
    decisionIteration_unfenced genNames parse (resps 0) h]
  rfl

/-- If every loop pass succeeds without a breaking action, the loop runs its
fuel out and returns the iteration-cap decision. -/
theorem decisionExecAux_cap (genNames : List PyVal) (parse : String → Option PyVal)
    (resps : Nat → String)
    (h : ∀ n, ∃ r, decisionIteration genNames parse (resps n) = .ok r ∧
      loopBreaks r = .ok false) :
    ∀ fuel n, decisionExecAux genNames parse resps fuel n = .ok maxLoopsResult := by
  intro fuel
  induction fuel with
  | zero => intro n; rfl
  | succ f ih =>
    intro n
    obtain ⟨r, h1, h2⟩ := h n
    simp only [decisionExecAux_succ, h1, h2]
    exact ih (n + 1)

/-! ### Claims C1, C4, C5, C6, C8 -/

/-- **C1, counterexample.**  The claim says every invocation of `exec`
terminates *and returns a decision* for every sequence of LLM responses.
It is refuted by a response whose fenced YAML parses to a mapping with an
`action` key but no `reason` key: the log statement at line 118 indexes
`result["reason"]` unconditionally, so `exec` raises an uncaught `KeyError`
instead of returning a decision. -/
theorem c1_counterexample :
    decisionExec [] yamlOracle (fun _ => "```yaml\naction: search\n```") =
      .error "KeyError: reason" := rfl

/-- **C1, amended.**  A single invocation of `exec` terminates after at most
`max_loops + 1 = 11` loop passes; when every pass yields a repaired result
without raising but with an action outside {search, generate, complete},
reaching the iteration cap coerces the result to the `complete` decision
with a non-empty reason, so the decision loop never spins forever — however
a pass that parses to a non-mapping, or to a mapping lacking `action` or
`reason`, terminates `exec` by an uncaught exception instead of returning a
decision. -/
theorem c1_amended_cap_forces_complete (genNames : List PyVal)
    (parse : String → Option PyVal) (resps : Nat → String)
    (h : ∀ n, ∃ r, decisionIteration genNames parse (resps n) = .ok r ∧
      loopBreaks r = .ok false) :
    decisionExec genNames parse resps = .ok maxLoopsResult ∧
    maxLoopsResult.getItem "action" = .ok (.str "complete") ∧
    ∃ s, maxLoopsResult.getItem "reason" = .ok (.str s) ∧ s ≠ "" :=
  ⟨decisionExecAux_cap genNames parse resps h (maxLoops + 1) 0, rfl,
    "已达最大循环次数，自动完成。", rfl, by decide⟩

/-- Witness for C1 (amended): under a model that always answers with a
well-formed mapping whose action is the unknown word `retry`, `exec` runs
out its iteration bound and returns the cap decision. -/
theorem c1_witness :
    decisionExec [] yamlOracle (fun _ => "```yaml\naction: retry\nreason: still deciding\n```") =
      .ok maxLoopsResult ∧
    maxLoopsResult.getItem "action" = .ok (.str "complete") ∧
    ∃ s, maxLoopsResult.getItem "reason" = .ok (.str s) ∧ s ≠ "" :=
  c1_amended_cap_forces_complete [] yamlOracle
    (fun _ => "```yaml\naction: retry\nreason: still deciding\n```")
    (fun _ => ⟨.dict [("action", .str "retry"), ("reason", .str "still deciding")], rfl, rfl⟩)

/-- **C4.**  Whenever extracting or parsing the LLM response raises (no
```` ```yaml ```` fence, or the YAML parser raising on the fenced text), the
loop pass produces the default decision with action `complete` and a
non-empty reason instead of propagating the parse error. -/
theorem c4_parse_failure_complete (genNames : List PyVal)
    (parse : String → Option PyVal) (resp : String)
    (h : decisionExtractChars resp.data = Option.none ∨
      ∃ body, decisionExtractChars resp.data = some body ∧
        parse (listAsString body) = Option.none) :
    decisionIteration genNames parse resp = .ok parseFailResult ∧
    parseFailResult.getItem "action" = .ok (.str "complete") ∧
    ∃ r, parseFailResult.getItem "reason" = .ok (.str r) ∧ r ≠ "" := by
  refine ⟨?_, rfl, "解析失败，默认完成", rfl, by decide⟩
  rcases h with h | ⟨body, h1, h2⟩
  · exact decisionIteration_unfenced genNames parse resp h
  · rw [decisionIteration,
      show rawDecision parse resp = parseFailResult from by
        simp only [rawDecision, h1, h2]]
    rfl

/-- Witness for C4: an unfenced response fails extraction and is coerced to
the default complete decision. -/
theorem c4_witness :
    decisionIteration [] yamlOracle "I cannot answer that." = .ok parseFailResult ∧
    parseFailResult.getItem "action" = .ok (.str "complete") ∧
    ∃ r, parseFailResult.getItem "reason" = .ok (.str r) ∧ r ≠ "" :=
  c4_parse_failure_complete [] yamlOracle "I cannot answer that." (Or.inl rfl)

/-- **C5, counterexample.**  The claim says `exec` is total over response
strings and never raises.  It is refuted by a response whose fenced YAML
parses to a mapping without an `action` key: the log statement at line 117
indexes `result["action"]` and `exec` raises an uncaught `KeyError`. -/
theorem c5_counterexample :
    decisionExec [] yamlOracle (fun _ => "```yaml\nfoo: bar\n```") =
      .error "KeyError: action" := rfl

/-- **C5, amended.**  The validation-and-repair loop does recover locally
from responses whose structured block is missing or whose YAML parse
raises — any run in which every response lacks the ```` ```yaml ```` fence
returns the default complete decision rather than surfacing an error — but
`exec` is not total over response strings: a response that parses to a
non-mapping, or to a mapping lacking `action` or `reason`, raises an
uncaught exception. -/
theorem c5_amended_parse_failures_recovered (genNames : List PyVal)
    (parse : String → Option PyVal) (resps : Nat → String)
    (h : ∀ n, decisionExtractChars (resps n).data = Option.none) :
    decisionExec genNames parse resps = .ok parseFailResult :=
  decisionExec_first_unfenced genNames parse resps (h 0)

/-- Witness for C5 (amended): a model that always returns unfenced text
drives `exec` to the default complete decision without an error. -/
theorem c5_witness :
    decisionExec [] yamlOracle (fun _ => "no structured block here") = .ok parseFailResult :=
  c5_amended_parse_failures_recovered [] yamlOracle
    (fun _ => "no structured block here") (fun _ => rfl)

/-- **C6, counterexample.**  The claimed output string separates the two
sections by three newlines (`A\n\n\n## 风险与挑战`), but each loop pass of
`CompleteReport.exec` appends `"\n## name\n\ncontent\n"`, so consecutive
sections are separated by exactly two newlines; only the first section gets
a third newline, inherited from the title's trailing blank line. -/
theorem c6_counterexample :
    completeReportExec "X" [⟨.str "市场规模分析", "A"⟩, ⟨.str "风险与挑战", "B"⟩] ≠
      "# X行业研究报告\n\n\n## 市场规模分析\n\nA\n\n\n## 风险与挑战\n\nB\n" := by
  decide

/-- **C6, amended.**  For the fixed two-section state and industry `X`, the
Completion Node's output equals exactly
`"# X行业研究报告\n\n\n## 市场规模分析\n\nA\n\n## 风险与挑战\n\nB\n"`:
a title heading derived from the industry name, then each section in
insertion order under a `##`-level heading, consecutive sections separated
by two newlines. -/
theorem c6_amended_report_layout :
    completeReportExec "X" [⟨.str "市场规模分析", "A"⟩, ⟨.str "风险与挑战", "B"⟩] =
      "# X行业研究报告\n\n\n## 市场规模分析\n\nA\n\n## 风险与挑战\n\nB\n" := rfl

/-- **C8.**  When the underlying LLM call raises, `call_llm` returns the
empty string instead of propagating the error, and the Decision Node then
takes its normal parse-failure path: the empty response has no fence, so
`exec` returns the default complete-with-reason decision and the run
terminates. -/
theorem c8_llm_failure_degrades_to_complete (e : String) (genNames : List PyVal)
    (parse : String → Option PyVal) (resps : Nat → String)
    (h : resps 0 = "") :
    call_llm (.error e) = "" ∧
    decisionExec genNames parse resps = .ok parseFailResult ∧
    parseFailResult.getItem "action" = .ok (.str "complete") ∧
    ∃ r, parseFailResult.getItem "reason" = .ok (.str r) ∧ r ≠ "" := by
  refine ⟨rfl, ?_, rfl, "解析失败，默认完成", rfl, by decide⟩
  exact decisionExec_first_unfenced genNames parse resps (by rw [h]; rfl)

/-- Witness for C8: a failing transport yields the empty response, and the
decision run completes with the default reason. -/
theorem c8_witness :
    call_llm (.error "connection refused") = "" ∧
    decisionExec [] yamlOracle (fun _ => "") = .ok parseFailResult ∧
    parseFailResult.getItem "action" = .ok (.str "complete") ∧
    ∃ r, parseFailResult.getItem "reason" = .ok (.str r) ∧ r ≠ "" :=
  c8_llm_failure_degrades_to_complete "connection refused" [] yamlOracle (fun _ => "") rfl

/-! ### Claims C2 and C3 -/

/-- **C2.**  If the parsed Decision response is a mapping with action
`generate`, some reason, and a section dict whose name is already among the
generated section names, and the checklist still has an entry not yet
generated, then the repair step does not accept the duplicate: it replaces
the target section by the first not-yet-generated checklist entry with the
default focus, and the action remains `generate`. -/
theorem c2_duplicate_generate_substituted (genNames : List PyVal)
    (kvs skvs : List (String × PyVal)) (rv : PyVal) (nm tgt : String)
    (hact : lookupStr kvs "action" = some (.str "generate"))
    (hreason : lookupStr kvs "reason" = some rv)
    (hsec : lookupStr kvs "section" = some (.dict skvs))
    (hname : lookupStr skvs "name" = some (.str nm))
    (hdup : pyMem (.str nm) genNames = true)
    (htgt : importantSections.find? (fun s => !(pyMem (.str s) genNames)) = some tgt) :
    repairDecision genNames (.dict kvs) =
      .ok (.dict (setAssoc kvs "section" (substituteSection tgt))) ∧
    lookupStr (setAssoc kvs "section" (substituteSection tgt)) "action" =
      some (.str "generate") ∧
    lookupStr (setAssoc kvs "section" (substituteSection tgt)) "section" =
      some (substituteSection tgt) := by
  refine ⟨?_, ?_, ?_⟩
  · simp only [repairDecision, PyVal.getItem, hact, hreason, hsec, PyVal.getD,
      PyVal.eqStr, beq_self_eq_true, if_true, repairGenerate, isDictWithKey,
      hname, Option.isSome_some, hdup, htgt, PyVal.setItem]
  · rw [lookupStr_setAssoc_ne _ _ _ _ (by decide), hact]
  · rw [lookupStr_setAssoc_self]

/-- Witness for C2, matching the spec's own example: with
`行业概述/行业概览` and `市场规模分析` already generated, a duplicate
`generate` for `市场规模分析` is replaced by `竞争格局分析` with the default
focus, and the action stays `generate`. -/
theorem c2_witness :
    repairDecision [.str "行业概述/行业概览", .str "市场规模分析"]
      (.dict [("action", .str "generate"), ("reason", .str "ok"),
              ("section", .dict [("name", .str "市场规模分析"), ("focus", .str "需求侧")])]) =
      .ok (.dict (setAssoc
        [("action", .str "generate"), ("reason", .str "ok"),
         ("section", .dict [("name", .str "市场规模分析"), ("focus", .str "需求侧")])]
        "section" (substituteSection "竞争格局分析"))) ∧
    lookupStr (setAssoc
        [("action", .str "generate"), ("reason", .str "ok"),
         ("section", .dict [("name", .str "市场规模分析"), ("focus", .str "需求侧")])]
        "section" (substituteSection "竞争格局分析")) "action" = some (.str "generate") ∧
    lookupStr (setAssoc
        [("action", .str "generate"), ("reason", .str "ok"),
         ("section", .dict [("name", .str "市场规模分析"), ("focus", .str "需求侧")])]
        "section" (substituteSection "竞争格局分析")) "section" =
      some (substituteSection "竞争格局分析") :=
  c2_duplicate_generate_substituted
    [.str "行业概述/行业概览", .str "市场规模分析"]
    [("action", .str "generate"), ("reason", .str "ok"),
     ("section", .dict [("name", .str "市场规模分析"), ("focus", .str "需求侧")])]
    [("name", .str "市场规模分析"), ("focus", .str "需求侧")]
    (.str "ok") "市场规模分析" "竞争格局分析" rfl rfl rfl rfl rfl rfl

/-- **C3, counterexample.**  The claim says that once all seven checklist
entries are generated, *any* `generate` decision is coerced to `complete`.
It is refuted by a `generate` decision naming a section that is *not* among
the generated names (here `公司案例研究`): the duplicate check at line 122
does not fire, so the decision is accepted unchanged with action
`generate`. -/
theorem c3_counterexample :
    decisionIteration (importantSections.map PyVal.str) yamlOracle
      "```yaml\naction: generate\nreason: ok\nsection:\n  name: 公司案例研究\n  focus: 案例\n```" =
      .ok (.dict [("action", .str "generate"), ("reason", .str "ok"),
                  ("section", .dict [("name", .str "公司案例研究"), ("focus", .str "案例")])]) ∧
    (PyVal.dict [("action", .str "generate"), ("reason", .str "ok"),
                 ("section", .dict [("name", .str "公司案例研究"), ("focus", .str "案例")])]).getItem
      "action" = .ok (.str "generate") :=
  ⟨rfl, rfl⟩

/-- **C3, amended.**  When all seven checklist entries are already among the
generated section names, a `generate` decision *whose section name is
already among the generated names* is coerced to `complete` with the
all-sections-generated reason; a `generate` decision naming a section not
yet generated is accepted unchanged. -/
theorem c3_amended_duplicate_generate_coerced_complete (genNames : List PyVal)
    (kvs skvs : List (String × PyVal)) (rv : PyVal) (nm : String)
    (hact : lookupStr kvs "action" = some (.str "generate"))
    (hreason : lookupStr kvs "reason" = some rv)
    (hsec : lookupStr kvs "section" = some (.dict skvs))
    (hname : lookupStr skvs "name" = some (.str nm))
    (hdup : pyMem (.str nm) genNames = true)
    (hall : ∀ s ∈ importantSections, pyMem (.str s) genNames = true) :
    repairDecision genNames (.dict kvs) =
      .ok (.dict (setAssoc (setAssoc kvs "action" (.str "complete")) "reason"
        (.str "所有重要章节都已生成，自动完成。"))) ∧
    lookupStr (setAssoc (setAssoc kvs "action" (.str "complete")) "reason"
        (.str "所有重要章节都已生成，自动完成。")) "action" = some (.str "complete") ∧
    lookupStr (setAssoc (setAssoc kvs "action" (.str "complete")) "reason"
        (.str "所有重要章节都已生成，自动完成。")) "reason" =
      some (.str "所有重要章节都已生成，自动完成。") := by
  have hfind : importantSections.find? (fun s => !(pyMem (.str s) genNames)) = Option.none := by
    rw [List.find?_eq_none]
    intro x hx
    simp [hall x hx]
  refine ⟨?_, ?_, ?_⟩
  · simp only [repairDecision, PyVal.getItem, hact, hreason, hsec, PyVal.getD,
      PyVal.eqStr, beq_self_eq_true, if_true, repairGenerate, isDictWithKey,
      hname, Option.isSome_some, hdup, hfind, PyVal.setItem]
  · rw [lookupStr_setAssoc_ne _ _ _ _ (by decide), lookupStr_setAssoc_self]
  · rw [lookupStr_setAssoc_self]

/-- Witness for C3 (amended): all seven checklist entries generated, a
duplicate `generate` for `市场规模分析` is coerced to `complete`. -/
theorem c3_witness :
    repairDecision (importantSections.map PyVal.str)
      (.dict [("action", .str "generate"), ("reason", .str "ok"),
              ("section", .dict [("name", .str "市场规模分析"), ("focus", .str "复盘")])]) =
      .ok (.dict (setAssoc (setAssoc
        [("action", .str "generate"), ("reason", .str "ok"),
         ("section", .dict [("name", .str "市场规模分析"), ("focus", .str "复盘")])]
        "action" (.str "complete")) "reason" (.str "所有重要章节都已生成，自动完成。"))) ∧
    lookupStr (setAssoc (setAssoc
        [("action", .str "generate"), ("reason", .str "ok"),
         ("section", .dict [("name", .str "市场规模分析"), ("focus", .str "复盘")])]
        "action" (.str "complete")) "reason" (.str "所有重要章节都已生成，自动完成。"))
      "action" = some (.str "complete") ∧
    lookupStr (setAssoc (setAssoc
        [("action", .str "generate"), ("reason", .str "ok"),
         ("section", .dict [("name", .str "市场规模分析"), ("focus", .str "复盘")])]
        "action" (.str "complete")) "reason" (.str "所有重要章节都已生成，自动完成。"))
      "reason" = some (.str "所有重要章节都已生成，自动完成。") :=
  c3_amended_duplicate_generate_coerced_complete (importantSections.map PyVal.str)
    [("action", .str "generate"), ("reason", .str "ok"),
     ("section", .dict [("name", .str "市场规模分析"), ("focus", .str "复盘")])]
    [("name", .str "市场规模分析"), ("focus", .str "复盘")]
    (.str "ok") "市场规模分析" rfl rfl rfl rfl rfl (by decide)

/-! ### Symmetry of Python equality, and claims C7 and C10 -/

mutual

theorem pyEq_symm : (a b : PyVal) → pyEq a b = pyEq b a
  | .none, .none => rfl
  | .none, .int _ => rfl
  | .none, .str _ => rfl
  | .none, .list _ => rfl
  | .none, .dict _ => rfl
  | .int _, .none => rfl
  | .int x, .int y => by
    simp only [pyEq]
    rw [Bool.eq_iff_iff]
    simp only [beq_iff_eq]
    exact eq_comm
  | .int _, .str _ => rfl
  | .int _, .list _ => rfl
  | .int _, .dict _ => rfl
  | .str _, .none => rfl
  | .str _, .int _ => rfl
  | .str x, .str y => by
    simp only [pyEq]
    rw [Bool.eq_iff_iff]
    simp only [beq_iff_eq]
    exact eq_comm
  | .str _, .list _ => rfl
  | .str _, .dict _ => rfl
  | .list _, .none => rfl
  | .list _, .int _ => rfl
  | .list _, .str _ => rfl
  | .list as, .list bs => by
    simp only [pyEq]
    exact pyEqList_symm as bs
  | .list _, .dict _ => rfl
  | .dict _, .none => rfl
  | .dict _, .int _ => rfl
  | .dict _, .str _ => rfl
  | .dict _, .list _ => rfl
  | .dict as, .dict bs => by
    simp only [pyEq]
    exact pyEqEntries_symm as bs

theorem pyEqList_symm : (as bs : List PyVal) → pyEqList as bs = pyEqList bs as
  | [], [] => rfl
  | [], _ :: _ => rfl
  | _ :: _, [] => rfl
  | a :: as, b :: bs => by
    simp only [pyEqList]
    rw [pyEq_symm a b, pyEqList_symm as bs]

theorem pyEqEntries_symm :
    (as bs : List (String × PyVal)) → pyEqEntries as bs = pyEqEntries bs as
  | [], [] => rfl
  | [], _ :: _ => rfl
  | _ :: _, [] => rfl
  | (k1, v1) :: as, (k2, v2) :: bs => by
    simp only [pyEqEntries]
    rw [pyEq_symm v1 v2, pyEqEntries_symm as bs,
      show (k1 == k2) = (k2 == k1) from by
        rw [Bool.eq_iff_iff]; simp only [beq_iff_eq]; exact eq_comm]

end

/-- Appending a name that is not yet present (by Python `==`) preserves
uniqueness of the name list. -/
theorem namesUnique_concat (xs : List PyVal) (y : PyVal)
    (hy : pyMem y xs = false) (hu : namesUnique xs = true) :
    namesUnique (xs ++ [y]) = true := by
  induction xs with
  | nil => simp [namesUnique, pyMem]
  | cons x xs ih =>
    rw [namesUnique, Bool.and_eq_true] at hu
    rw [pyMem] at hy
    by_cases hxy : pyEq x y = true
    · rw [if_pos hxy] at hy
      cases hy
    · rw [if_neg hxy] at hy
      have hxyf : pyEq x y = false := by
        revert hxy; cases pyEq x y <;> simp
      rw [List.cons_append, namesUnique, Bool.and_eq_true]
      refine ⟨?_, ih hy hu.2⟩
      rw [pyMem_append]
      have h1 : pyMem x xs = false := by simpa using hu.1
      have h2 : pyMem x [y] = false := by
        rw [pyMem, pyEq_symm y x, hxyf, if_neg (by simp)]
        rfl
      simp [h1, h2]

/-- **C7.**  If the section produced by `GenerateSection.exec` has a name
already present in `generated_sections`, the `post` phase leaves the list
entirely unchanged (same entries, same order) and still returns
`"continue"`; consequently name-uniqueness of `generated_sections` is
preserved by every `post`, and duplicate generation requests are idempotent
no-ops. -/
theorem c7_duplicate_append_noop_preserves_unique
    (sections : List GenSection) (execRes : GenSection) :
    (pyMem execRes.name (generatedSectionNames sections) = true →
      generateSectionPost sections execRes = (sections, "continue")) ∧
    (namesUnique (generatedSectionNames sections) = true →
      namesUnique (generatedSectionNames (generateSectionPost sections execRes).1) = true) ∧
    (generateSectionPost sections execRes).2 = "continue" := by
  by_cases h : pyMem execRes.name (generatedSectionNames sections) = true
  · exact ⟨fun _ => by simp [generateSectionPost, h],
      fun hu => by simpa [generateSectionPost, h] using hu,
      by simp [generateSectionPost, h]⟩
  · have hf : pyMem execRes.name (generatedSectionNames sections) = false := by
      revert h; cases pyMem execRes.name (generatedSectionNames sections) <;> simp
    refine ⟨fun hc => absurd hc h, fun hu => ?_, by simp [generateSectionPost, hf]⟩
    have hpost : (generateSectionPost sections execRes).1 = sections ++ [execRes] := by
      simp [generateSectionPost, hf]
    rw [hpost,
      show generatedSectionNames (sections ++ [execRes]) =
        generatedSectionNames sections ++ [execRes.name] from by
          simp [generatedSectionNames]]
    exact namesUnique_concat _ _ hf hu

/-- Witness for C7: a duplicate of the only stored section name is a no-op
that keeps the list unchanged, uniqueness is preserved, and the action is
`"continue"`. -/
theorem c7_witness :
    generateSectionPost [⟨.str "市场规模分析", "A"⟩] ⟨.str "市场规模分析", "again"⟩ =
      ([⟨.str "市场规模分析", "A"⟩], "continue") ∧
    namesUnique (generatedSectionNames
      (generateSectionPost [⟨.str "市场规模分析", "A"⟩] ⟨.str "市场规模分析", "again"⟩).1) = true ∧
    (generateSectionPost [⟨.str "市场规模分析", "A"⟩] ⟨.str "市场规模分析", "again"⟩).2 = "continue" :=
  ⟨(c7_duplicate_append_noop_preserves_unique [⟨.str "市场规模分析", "A"⟩]
      ⟨.str "市场规模分析", "again"⟩).1 (by decide),
   (c7_duplicate_append_noop_preserves_unique [⟨.str "市场规模分析", "A"⟩]
      ⟨.str "市场规模分析", "again"⟩).2.1 (by decide),
   (c7_duplicate_append_noop_preserves_unique [⟨.str "市场规模分析", "A"⟩]
      ⟨.str "市场规模分析", "again"⟩).2.2⟩

/-- **C10.**  When `current_section` is malformed (not a dict, or lacking a
`name` key), `GenerateSection.exec` does not raise: it returns the fallback
section named `错误章节` whose content describes the format error, and the
`post` phase appends that fallback (its name not being present yet) and
still returns `"continue"`. -/
theorem c10_malformed_section_fallback (industry : String) (sectionV : PyVal)
    (contextStr : String) (llm : String → String) (sections : List GenSection)
    (hmal : isDictWithKey sectionV "name" = false)
    (hnew : pyMem (PyVal.str "错误章节") (generatedSectionNames sections) = false) :
    generateSectionExec industry sectionV contextStr llm = errorSection sectionV ∧
    (errorSection sectionV).name = .str "错误章节" ∧
    (errorSection sectionV).content = "章节信息格式错误: " ++ pyStr sectionV ∧
    generateSectionPost sections (errorSection sectionV) =
      (sections ++ [errorSection sectionV], "continue") := by
  refine ⟨?_, rfl, rfl, ?_⟩
  · cases sectionV with
    | dict kvs =>
      cases hl : lookupStr kvs "name" with
      | none => simp [generateSectionExec, hl]
      | some v =>
        rw [isDictWithKey, hl] at hmal
        cases hmal
    | none => rfl
    | int n => rfl
    | str s => rfl
    | list xs => rfl
  · simp [generateSectionPost, errorSection, hnew]

/-- Witness for C10: a `None` section (e.g. `shared["current_section"]`
missing its dict shape) yields the fallback section, which is appended to an
empty list with action `"continue"`. -/
theorem c10_witness :
    generateSectionExec "X" PyVal.none "" (fun _ => "") = errorSection PyVal.none ∧
    (errorSection PyVal.none).name = .str "错误章节" ∧
    (errorSection PyVal.none).content = "章节信息格式错误: " ++ pyStr PyVal.none ∧
    generateSectionPost [] (errorSection PyVal.none) =
      ([errorSection PyVal.none], "continue") :=
  c10_malformed_section_fallback "X" PyVal.none "" (fun _ => "") [] rfl rfl

/-! ### Fence-finding lemmas and claim C9 -/

theorem isPrefixOfCh_append_self : (s t : List Char) → isPrefixOfCh s (s ++ t) = true
  | [], _ => rfl
  | c :: s, t => by simp [isPrefixOfCh, isPrefixOfCh_append_self s t]

theorem findSub_of_prefix (sub cs : List Char) (h : isPrefixOfCh sub cs = true) :
    findSub sub cs = some 0 := by
  cases cs with
  | nil => simp [findSub, h]
  | cons c t => simp [findSub, h]

/-- Scanning for a pattern that starts with a backtick skips over any
backtick-free prefix. -/
theorem findSub_append_shift (s2 : List Char) (body tail : List Char)
    (hb : noBacktick body = true) :
    findSub (backtickChar :: s2) (body ++ tail) =
      (findSub (backtickChar :: s2) tail).map (· + body.length) := by
  induction body with
  | nil =>
    rw [List.nil_append]
    cases h : findSub (backtickChar :: s2) tail <;> simp [h]
  | cons c b ih =>
    rw [noBacktick, List.all_cons, Bool.and_eq_true] at hb
    have hc : c ≠ backtickChar := by simpa using hb.1
    rw [List.cons_append]
    simp only [findSub]
    rw [show isPrefixOfCh (backtickChar :: s2) (c :: (b ++ tail)) = false from by
      simp only [isPrefixOfCh]
      rw [if_neg (fun hh => hc hh.symm)]]
    rw [if_neg (by simp)]
    rw [ih hb.2]
    cases h : findSub (backtickChar :: s2) tail with
    | none => simp [h]
    | some n => simp [h, Nat.add_assoc]

/-- A backtick-free text contains no pattern that starts with a backtick. -/
theorem findSub_none_of_noBacktick (s2 cs : List Char) (h : noBacktick cs = true) :
    findSub (backtickChar :: s2) cs = Option.none := by
  have hshift := findSub_append_shift s2 cs [] h
  rw [List.append_nil] at hshift
  rw [hshift]
  rfl

/-- Labeled-fence extraction: the text between ```` ```yaml ```` and the
closing ```` ``` ```` is extracted and stripped. -/
theorem parseYamlExtract_labeled (body rest : List Char) (hb : noBacktick body = true) :
    parseYamlExtractChars (yamlFence ++ body ++ tick3 ++ rest) = stripChars body := by
  have hcs : yamlFence ++ body ++ tick3 ++ rest = yamlFence ++ (body ++ (tick3 ++ rest)) := by
    simp [List.append_assoc]
  rw [hcs]
  have h1 : findSub yamlFence (yamlFence ++ (body ++ (tick3 ++ rest))) = some 0 :=
    findSub_of_prefix _ _ (isPrefixOfCh_append_self _ _)
  have hdrop : (yamlFence ++ (body ++ (tick3 ++ rest))).drop (0 + 7) = body ++ (tick3 ++ rest) := rfl
  have h2 : findSub tick3 (body ++ (tick3 ++ rest)) = some body.length := by
    have base : findSub tick3 (tick3 ++ rest) = some 0 :=
      findSub_of_prefix _ _ (isPrefixOfCh_append_self _ _)
    have hshift := findSub_append_shift "``".data body (tick3 ++ rest) hb
    rw [show (backtickChar :: "``".data) = tick3 from rfl] at hshift
    rw [hshift, base]
    simp
  simp only [parseYamlExtractChars, h1, hdrop, h2]
  rw [show (body ++ (tick3 ++ rest)).take body.length = body from List.take_left body _]

/-- Bare-fence extraction: when no ```` ```yaml ```` label occurs, the text
between the first ```` ``` ```` and the next one is extracted and
stripped. -/
theorem parseYamlExtract_unlabeled (body rest : List Char) (hb : noBacktick body = true)
    (hnoy : findSub yamlFence (tick3 ++ body ++ tick3 ++ rest) = Option.none) :
    parseYamlExtractChars (tick3 ++ body ++ tick3 ++ rest) = stripChars body := by
  have hcs : tick3 ++ body ++ tick3 ++ rest = tick3 ++ (body ++ (tick3 ++ rest)) := by
    simp [List.append_assoc]
  rw [hcs] at hnoy ⊢
  have h1 : findSub tick3 (tick3 ++ (body ++ (tick3 ++ rest))) = some 0 :=
    findSub_of_prefix _ _ (isPrefixOfCh_append_self _ _)
  have hdrop : (tick3 ++ (body ++ (tick3 ++ rest))).drop (0 + 3) = body ++ (tick3 ++ rest) := rfl
  have h2 : findSub tick3 (body ++ (tick3 ++ rest)) = some body.length := by
    have base : findSub tick3 (tick3 ++ rest) = some 0 :=
      findSub_of_prefix _ _ (isPrefixOfCh_append_self _ _)
    have hshift := findSub_append_shift "``".data body (tick3 ++ rest) hb
    rw [show (backtickChar :: "``".data) = tick3 from rfl] at hshift
    rw [hshift, base]
    simp
  simp only [parseYamlExtractChars, hnoy, h1, hdrop, h2]
  rw [show (body ++ (tick3 ++ rest)).take body.length = body from List.take_left body _]

/-- Unfenced extraction: a backtick-free response is stripped whole. -/
theorem parseYamlExtract_unfenced (cs : List Char) (h : noBacktick cs = true) :
    parseYamlExtractChars cs = stripChars cs := by
  have h1 : findSub yamlFence cs = Option.none := by
    rw [show yamlFence = backtickChar :: "``yaml".data from rfl]
    exact findSub_none_of_noBacktick _ _ h
  have h2 : findSub tick3 cs = Option.none := by
    rw [show tick3 = backtickChar :: "``".data from rfl]
    exact findSub_none_of_noBacktick _ _ h
  simp only [parseYamlExtractChars, h1, h2]

/-- The Decision Node's own inline extraction accepts only the
```` ```yaml ````-labeled shape: it fails on every backtick-free response. -/
theorem decisionExtract_requires_label (cs : List Char) (h : noBacktick cs = true) :
    decisionExtractChars cs = Option.none := by
  have h1 : findSub yamlFence cs = Option.none := by
    rw [show yamlFence = backtickChar :: "``yaml".data from rfl]
    exact findSub_none_of_noBacktick _ _ h
  simp only [decisionExtractChars, h1]

/-- **C9, counterexample.**  The claim says the structured-response
extraction used by the Decision node tolerates fenced-labeled,
fenced-unlabeled and unfenced shapes.  The Decision Node's inline
extraction (line 110, `resp.split("```yaml")[1]`) rejects both the
unfenced and the bare-fence shape — such responses are not extracted and
parsed but take the parse-failure path. -/
theorem c9_counterexample :
    decisionExtractChars ("action: search\nreason: need more data".data) = Option.none ∧
    decisionExtractChars ("```\naction: search\n```".data) = Option.none ∧
    decisionIteration [] yamlOracle "action: search\nreason: need more data" =
      .ok parseFailResult :=
  ⟨rfl, rfl, rfl⟩

/-- **C9, amended.**  `LLMHelper.parse_yaml_response` tolerates the three
input shapes in preference order — fenced-and-labeled, fenced-unlabeled,
and unfenced raw text (trimming the whole response) — handing the embedded
text to the YAML parser in all three cases; the Decision Node's inline
extraction in `run_industry_research_report.py`, however, accepts only the
```` ```yaml ````-labeled shape and treats every backtick-free response as
a parse failure. -/
theorem c9_amended_extraction_shapes :
    (∀ (body rest : List Char) (parse : String → Option PyVal) (v : PyVal),
      noBacktick body = true →
      parse (listAsString (stripChars body)) = some v →
      parse_yaml_response parse (listAsString (yamlFence ++ body ++ tick3 ++ rest)) = v) ∧
    (∀ (body rest : List Char) (parse : String → Option PyVal) (v : PyVal),
      noBacktick body = true →
      findSub yamlFence (tick3 ++ body ++ tick3 ++ rest) = Option.none →
      parse (listAsString (stripChars body)) = some v →
      parse_yaml_response parse (listAsString (tick3 ++ body ++ tick3 ++ rest)) = v) ∧
    (∀ (cs : List Char) (parse : String → Option PyVal) (v : PyVal),
      noBacktick cs = true →
      parse (listAsString (stripChars cs)) = some v →
      parse_yaml_response parse (listAsString cs) = v) ∧
    (∀ cs : List Char, noBacktick cs = true → decisionExtractChars cs = Option.none) := by
  refine ⟨?_, ?_, ?_, decisionExtract_requires_label⟩
  · intro body rest parse v hb hv
    rw [parse_yaml_response,
      show (listAsString (yamlFence ++ body ++ tick3 ++ rest)).data =
        yamlFence ++ body ++ tick3 ++ rest from rfl,
      parseYamlExtract_labeled body rest hb, hv]
  · intro body rest parse v hb hnoy hv
    rw [parse_yaml_response,
      show (listAsString (tick3 ++ body ++ tick3 ++ rest)).data =
        tick3 ++ body ++ tick3 ++ rest from rfl,
      parseYamlExtract_unlabeled body rest hb hnoy, hv]
  · intro cs parse v h hv
    rw [parse_yaml_response,
      show (listAsString cs).data = cs from rfl,
      parseYamlExtract_unfenced cs h, hv]

/-- Witness for C9 (amended): with an echo parser, all three shapes hand the
embedded text to the parser, and the Decision Node's extraction rejects the
unfenced shape. -/
theorem c9_witness :
    parse_yaml_response (fun s => some (.str s))
      (listAsString (yamlFence ++ "action: go".data ++ tick3 ++ [])) = .str "action: go" ∧
    parse_yaml_response (fun s => some (.str s))
      (listAsString (tick3 ++ "x: y".data ++ tick3 ++ [])) = .str "x: y" ∧
    parse_yaml_response (fun s => some (.str s))
      (listAsString "plain: text".data) = .str "plain: text" ∧
    decisionExtractChars "plain: text".data = Option.none :=
  ⟨c9_amended_extraction_shapes.1 "action: go".data [] (fun s => some (.str s))
      (.str "action: go") rfl rfl,
   c9_amended_extraction_shapes.2.1 "x: y".data [] (fun s => some (.str s))
      (.str "x: y") rfl rfl rfl,
   c9_amended_extraction_shapes.2.2.1 "plain: text".data (fun s => some (.str s))
      (.str "plain: text") rfl rfl,
   c9_amended_extraction_shapes.2.2.2 "plain: text".data rfl⟩

end IndustryReport
